import Mathlib

/-!
Shallow embedding of the git-agecrypt filter core (src/main.rs).

The embedded functions are `clean`, `smudge`, `textconv` and
`load_rule_for`, translated from the source.  The external
collaborators (the `age` crypto module, the `git` repository module and
the `nix` evaluator module, which are modules of this repository not
present under src/) appear as explicit function parameters whose
contracts come from the specification, as noted where they are used.

Bytes are lists of naturals; file paths are a flag for absoluteness plus
a list of components; the per-file sidecar is a single file state.
-/

deriving instance DecidableEq for Except

/-- Byte strings are modelled as lists of naturals. -/
abbrev Bytes := List Nat

/-- The all-zero 32-byte buffer that `clean` initialises `existing_hash`
with before trying to read the sidecar file. -/
def zeros32 : Bytes := List.replicate 32 0

/-- A filesystem path: whether it is absolute, and its components.
Rust `Path::parent` returns `None` exactly on a root or empty path,
i.e. when the component list is empty. -/
structure FsPath where
  absolute : Bool
  components : List String
deriving DecidableEq, Repr

/-- `Path::parent`: drop the last component; `none` when there is no
component to drop (a root or the empty path). -/
def FsPath.parent (p : FsPath) : Option FsPath :=
  match p.components with
  | [] => none
  | _ :: _ => some ⟨p.absolute, p.components.dropLast⟩

/-- `Path::join` with a relative single-component argument, which is how
rule keys are appended to the base directory.  Rule-tree keys are
modelled as single path components. -/
def FsPath.joinComp (p : FsPath) (c : String) : FsPath :=
  ⟨p.absolute, p.components ++ [c]⟩

/-- Modelled from the spec: the generic value tree returned by the
missing `nix` evaluator module ("object (ordered string-keyed mapping),
array, string, or opaque/unsupported"). -/
inductive NixValue where
  | obj : List (String × NixValue) → NixValue
  | arr : List NixValue → NixValue
  | str : String → NixValue
  | other : NixValue

/-- `as_object`: the entry list when the value is a mapping. -/
def NixValue.asObject : NixValue → Option (List (String × NixValue))
  | .obj l => some l
  | _ => none

/-- `as_array`: the element list when the value is an array. -/
def NixValue.asArray : NixValue → Option (List NixValue)
  | .arr l => some l
  | _ => none

/-- `as_str`: the string when the value is a string. -/
def NixValue.asStr : NixValue → Option String
  | .str s => some s
  | _ => none

/-- `.get(key)` on an ordered mapping: first entry with the key. -/
def getAttr (l : List (String × NixValue)) (k : String) : Option NixValue :=
  match l with
  | [] => none
  | (k2, v) :: rest => if k2 = k then some v else getAttr rest k

/-- The attribute name looked up in each rule entry. -/
def pkKey : String := "publicKeys"

/-- Message of the top-level and entry-level object-cast failures. -/
def objMsg : String := "Expected to contain objects"

/-- Message when the publicKeys attribute is absent. -/
def pkMissingMsg : String := "publicKeys attribute missing"

/-- Message when publicKeys is not an array. -/
def pkListMsg : String := "publicKeys must be a list"

/-- Message when a publicKeys element is not a string. -/
def pkStringsMsg : String := "publicKeys should be list of strings"

/-- Failures of `load_rule_for`.  `evalFailed` and `canonFailed` stand
for propagated errors of the evaluator and of `fs::canonicalize`;
`panicked` marks the `.unwrap()` on `Path::parent` firing on `None`,
which is a process abort, not a recoverable error. -/
inductive RuleErr where
  | configError : String → RuleErr
  | noRuleFound : FsPath → FsPath → RuleErr
  | evalFailed : RuleErr
  | canonFailed : RuleErr
  | panicked : RuleErr
deriving DecidableEq, Repr

/-- The resolved rule: absolute path plus ordered recipient keys. -/
structure AgenixRule where
  path : FsPath
  public_keys : List String
deriving DecidableEq, Repr

/-- The `map`/`collect` over the publicKeys array: every element must be
a string; the first non-string element aborts with the element error. -/
def collectStrings : List NixValue → Except RuleErr (List String)
  | [] => .ok []
  | v :: rest =>
    match v.asStr with
    | none => .error (.configError pkStringsMsg)
    | some s =>
      match collectStrings rest with
      | .error e => .error e
      | .ok ss => .ok (s :: ss)

/-- The entry loop of `load_rule_for`: walk the top-level mapping in
order; skip entries whose joined path differs from the target; on the
first match validate the entry value and return the rule; when the list
is exhausted fail with the no-rule error carrying the rule source and
the target path. -/
def findRule (rulesPath target dir : FsPath) :
    List (String × NixValue) → Except RuleErr AgenixRule
  | [] => .error (.noRuleFound rulesPath target)
  | (pth, v) :: rest =>
    let absPath := dir.joinComp pth
    if absPath = target then
      match v.asObject with
      | none => .error (.configError objMsg)
      | some entry =>
        match getAttr entry pkKey with
        | none => .error (.configError pkMissingMsg)
        | some pkVal =>
          match pkVal.asArray with
          | none => .error (.configError pkListMsg)
          | some arr =>
            match collectStrings arr with
            | .error e => .error e
            | .ok keys => .ok ⟨absPath, keys⟩
    else findRule rulesPath target dir rest

/-- `load_rule_for` from src/main.rs: evaluate the rule source, take the
canonicalized parent directory of the rule source (the `.unwrap()` on
`parent` is a panic when the path has no parent), require a top-level
mapping, and walk its entries.  `evalFile` models the missing
`nix::eval_file` collaborator and `canon` models `fs::canonicalize`. -/
def load_rule_for (evalFile : FsPath → Except Unit NixValue)
    (canon : FsPath → Except Unit FsPath)
    (rulesPath forFile : FsPath) : Except RuleErr AgenixRule :=
  match evalFile rulesPath with
  | .error _ => .error .evalFailed
  | .ok val =>
    match rulesPath.parent with
    | none => .error .panicked
    | some par =>
      match canon par with
      | .error _ => .error .canonFailed
      | .ok dir =>
        match val.asObject with
        | none => .error (.configError objMsg)
        | some entries => findRule rulesPath forFile dir entries

/-- State of one sidecar file: absent, present with its byte content, or
failing to open with an error other than NotFound. -/
inductive FileState where
  | absent : FileState
  | present : Bytes → FileState
  | ioError : FileState
deriving DecidableEq, Repr

/-- Failures of `clean`. -/
inductive CleanErr where
  | ioOpenFailed : CleanErr
  | ioReadFailed : CleanErr
  | ruleFailed : RuleErr → CleanErr
  | encryptFailed : CleanErr
  | gitFailed : CleanErr
deriving DecidableEq, Repr

/-- The sidecar read at the top of `clean`: `existing_hash` starts as 32
zero bytes; on open success `read_exact` fills it with the first 32
bytes and fails only when the file holds fewer than 32 bytes; a missing
file leaves the zeros; any other open failure aborts. -/
def readSidecarDigest : FileState → Except CleanErr Bytes
  | .absent => .ok zeros32
  | .present b => if b.length < 32 then .error .ioReadFailed else .ok (b.take 32)
  | .ioError => .error .ioOpenFailed

/-- `clean` from src/main.rs, returning the final sidecar state together
with the outcome.  `h` models the blake3 hash of the missing hashing
collaborator; `committed` models `repo.get_file_contents` (the blob
committed at HEAD) of the missing `git` module; `encrypt` models
`age::encrypt` of the missing `age` module.  When the fresh digest
equals the stored one the committed blob is returned untouched;
otherwise the sidecar is overwritten with the fresh digest before the
rule is resolved and the plaintext encrypted. -/
def clean (h : Bytes → Bytes) (committed : Except CleanErr Bytes)
    (evalFile : FsPath → Except Unit NixValue)
    (canon : FsPath → Except Unit FsPath)
    (encrypt : List String → Bytes → Except Unit Bytes)
    (rulesPath file : FsPath) (sidecar : FileState) (plaintext : Bytes) :
    FileState × Except CleanErr Bytes :=
  match readSidecarDigest sidecar with
  | .error e => (sidecar, .error e)
  | .ok oldHash =>
    if h plaintext = oldHash then
      (sidecar, committed)
    else
      let sidecar2 := FileState.present (h plaintext)
      match load_rule_for evalFile canon rulesPath file with
      | .error e => (sidecar2, .error (.ruleFailed e))
      | .ok rule =>
        match encrypt rule.public_keys plaintext with
        | .error _ => (sidecar2, .error .encryptFailed)
        | .ok c => (sidecar2, .ok c)

/-- Failures of `smudge`: the input is not recognised as encrypted, or
the decryption collaborator failed hard. -/
inductive SmudgeErr where
  | notEncrypted : SmudgeErr
  | cryptoFailed : SmudgeErr
deriving DecidableEq, Repr

/-- `smudge` from src/main.rs: attempt decryption of the piped input;
a hard decrypt failure propagates; an unrecognised input fails with the
not-encrypted error; on success the sidecar is overwritten with the
plaintext digest and the plaintext is emitted.  `decrypt` models
`age::decrypt` of the missing `age` module, returning `none` exactly
when the input is not in the encrypted format. -/
def smudge (h : Bytes → Bytes)
    (decrypt : Bytes → Except Unit (Option Bytes))
    (sidecar : FileState) (input : Bytes) :
    FileState × Except SmudgeErr Bytes :=
  match decrypt input with
  | .error _ => (sidecar, .error .cryptoFailed)
  | .ok none => (sidecar, .error .notEncrypted)
  | .ok (some rv) => (.present (h rv), .ok rv)

/-- `textconv` from src/main.rs on the file's full byte content: show
the decryption when the content is recognised, otherwise rewind and show
the raw bytes unchanged. -/
def textconv (decrypt : Bytes → Except Unit (Option Bytes))
    (contents : Bytes) : Except Unit Bytes :=
  match decrypt contents with
  | .error e => .error e
  | .ok (some rv) => .ok rv
  | .ok none => .ok contents

/-- A rule-entry value of the shape the resolver accepts: a mapping with
a publicKeys array of strings. -/
def mkRuleVal (keys : List String) : NixValue :=
  .obj [(pkKey, .arr (keys.map NixValue.str))]

/-- A concrete 32-byte hash adapter for witnesses: 31 zero bytes
followed by one byte depending on the input's head. -/
def hashDemo : Bytes → Bytes :=
  fun b => List.replicate 31 0 ++ [b.headD 0 + 1]

/-- A concrete encrypt adapter for witnesses: prepend a zero byte. -/
def encDemo : List String → Bytes → Except Unit Bytes :=
  fun _ p => .ok (0 :: p)

/-- The decrypt adapter inverting `encDemo`: drop the leading byte. -/
def decDemo : Bytes → Except Unit (Option Bytes) :=
  fun c => .ok (some (c.drop 1))

/-- A decrypt adapter that recognises nothing as encrypted. -/
def decNoneDemo : Bytes → Except Unit (Option Bytes) :=
  fun _ => .ok none

/-- Rule source path used by witnesses. -/
def rulesPathDemo : FsPath := ⟨true, ["repo", "secrets.nix"]⟩

/-- Base directory of `rulesPathDemo`. -/
def dirDemo : FsPath := ⟨true, ["repo"]⟩

/-- First rule key used by witnesses. -/
def keyDemo : String := "db.txt"

/-- Second rule key used by witnesses. -/
def key2Demo : String := "other.txt"

/-- A key matching no rule entry, used by witnesses. -/
def key3Demo : String := "unlisted.txt"

/-- First recipient list used by witnesses. -/
def ageKeyDemo : String := "ageKEY1"

/-- Second recipient used by witnesses. -/
def ageKey2Demo : String := "ageKEY2"

/-- Rule tree used by witnesses: two entries. -/
def treeDemo : NixValue :=
  .obj [(keyDemo, mkRuleVal [ageKeyDemo]), (key2Demo, mkRuleVal [ageKey2Demo])]

/-- Evaluator adapter used by witnesses: always returns `treeDemo`. -/
def evDemo : FsPath → Except Unit NixValue := fun _ => .ok treeDemo

/-- Canonicalize adapter used by witnesses: the identity. -/
def cnDemo : FsPath → Except Unit FsPath := fun p => .ok p

/-- Target file path used by witnesses, matching the first rule. -/
def fileDemo : FsPath := dirDemo.joinComp keyDemo

/-- Sidecar-hit behaviour of `clean`: when the sidecar holds exactly the
plaintext digest (which is 32 bytes long), `clean` leaves the sidecar
untouched and returns the committed blob, whatever the rule and crypto
parameters are. -/
theorem clean_hit (h : Bytes → Bytes) (committed : Except CleanErr Bytes)
    (ev : FsPath → Except Unit NixValue) (cn : FsPath → Except Unit FsPath)
    (enc : List String → Bytes → Except Unit Bytes)
    (rp f : FsPath) (P : Bytes) (hlen : (h P).length = 32) :
    clean h committed ev cn enc rp f (.present (h P)) P
      = (.present (h P), committed) := by
  have htake : (h P).take 32 = h P := List.take_of_length_le (le_of_eq hlen)
  simp [clean, readSidecarDigest, hlen, htake]

/-- Sidecar-miss behaviour of `clean`: when the read digest differs from
the plaintext digest, the sidecar is overwritten with the fresh digest
and the fresh-encryption pipeline runs. -/
theorem clean_miss (h : Bytes → Bytes) (committed : Except CleanErr Bytes)
    (ev : FsPath → Except Unit NixValue) (cn : FsPath → Except Unit FsPath)
    (enc : List String → Bytes → Except Unit Bytes)
    (rp f : FsPath) (sc : FileState) (P old : Bytes)
    (hread : readSidecarDigest sc = .ok old) (hne : h P ≠ old) :
    clean h committed ev cn enc rp f sc P =
      (FileState.present (h P),
        match load_rule_for ev cn rp f with
        | .error e => .error (.ruleFailed e)
        | .ok rule =>
          match enc rule.public_keys P with
          | .error _ => .error .encryptFailed
          | .ok c => .ok c) := by
  cases hlr : load_rule_for ev cn rp f with
  | error e => simp [clean, hread, hne, hlr]
  | ok rule =>
    cases henc : enc rule.public_keys P with
    | error a => simp [clean, hread, hne, hlr, henc]
    | ok c => simp [clean, hread, hne, hlr, henc]

/-- Claim C2: when the sidecar holds exactly the plaintext digest,
`clean` returns the committed-at-HEAD blob, leaves the sidecar state
unchanged, and its result does not depend on the evaluator, the
canonicalizer, the rule source, the target path or the encryption
adapter (so no rule resolution and no encryption take place); re-running
`clean` on the same unchanged plaintext therefore yields byte-identical
output. -/
theorem C2_clean_sidecar_hit (h : Bytes → Bytes)
    (committed : Except CleanErr Bytes) (P : Bytes)
    (hlen : (h P).length = 32) :
    ∀ (ev : FsPath → Except Unit NixValue) (cn : FsPath → Except Unit FsPath)
      (enc : List String → Bytes → Except Unit Bytes) (rp f : FsPath),
      clean h committed ev cn enc rp f (.present (h P)) P
        = (.present (h P), committed) :=
  fun ev cn enc rp f => clean_hit h committed ev cn enc rp f P hlen

/-- Witness for C2 at concrete inputs: the adapters that always fail are
never consulted, and the committed blob comes back with the sidecar
untouched. -/
theorem C2_clean_sidecar_hit_witness :
    clean hashDemo (.ok [9]) (fun _ => .error ()) (fun _ => .error ())
      (fun _ _ => .error ()) rulesPathDemo fileDemo (.present (hashDemo [5])) [5]
      = (.present (hashDemo [5]), .ok [9]) :=
  C2_clean_sidecar_hit hashDemo (.ok [9]) [5] (by decide)
    (fun _ => .error ()) (fun _ => .error ()) (fun _ _ => .error ())
    rulesPathDemo fileDemo

/-- Claim C4 (amended): the sidecar read succeeds on a file of at least
32 bytes, yielding its first 32 bytes; a file of fewer than 32 bytes is
a fatal read error; a missing file yields the all-zero digest rather
than an error; any other open failure is fatal. -/
theorem C4_sidecar_read :
    (∀ b : Bytes, 32 ≤ b.length →
      readSidecarDigest (.present b) = .ok (b.take 32)) ∧
    (∀ b : Bytes, b.length < 32 →
      readSidecarDigest (.present b) = .error .ioReadFailed) ∧
    readSidecarDigest .absent = .ok zeros32 ∧
    readSidecarDigest .ioError = .error .ioOpenFailed := by
  refine ⟨?_, ?_, rfl, rfl⟩
  · intro b hb
    simp [readSidecarDigest, Nat.not_lt.mpr hb]
  · intro b hb
    simp [readSidecarDigest, hb]

/-- Witness for C4 at concrete inputs: a 33-byte sidecar is accepted
with its first 32 bytes, a 5-byte sidecar is a fatal read error. -/
theorem C4_sidecar_read_witness :
    readSidecarDigest (.present (List.replicate 33 7))
        = .ok ((List.replicate 33 7).take 32) ∧
    readSidecarDigest (.present (List.replicate 5 7))
        = .error .ioReadFailed :=
  ⟨C4_sidecar_read.1 (List.replicate 33 7) (by decide),
   C4_sidecar_read.2.1 (List.replicate 5 7) (by decide)⟩

/-- Counterexample to C4 as stated: a sidecar file of 33 bytes, which is
not of the digest length 32, is read successfully (its first 32 bytes
are taken) instead of being a fatal error. -/
theorem C4_counterexample :
    readSidecarDigest (.present (List.replicate 33 7))
        = .ok (List.replicate 32 7) ∧
    (List.replicate 33 7 : Bytes).length ≠ 32 := by
  constructor
  · decide
  · decide

/-- Claim C5 (amended): with no sidecar file present, the missing record
is read as the all-zero digest; provided the plaintext digest is not the
all-zero digest, `clean` overwrites the sidecar with the fresh digest,
resolves the rule propagating any resolver failure unchanged, and on
successful resolution and encryption returns the freshly encrypted
ciphertext. -/
theorem C5_clean_absent_sidecar (h : Bytes → Bytes)
    (committed : Except CleanErr Bytes)
    (ev : FsPath → Except Unit NixValue) (cn : FsPath → Except Unit FsPath)
    (enc : List String → Bytes → Except Unit Bytes)
    (rp f : FsPath) (P : Bytes) (hz : h P ≠ zeros32) :
    (clean h committed ev cn enc rp f .absent P).1 = .present (h P) ∧
    (∀ e, load_rule_for ev cn rp f = .error e →
      (clean h committed ev cn enc rp f .absent P).2
        = .error (.ruleFailed e)) ∧
    (∀ rule c, load_rule_for ev cn rp f = .ok rule →
      enc rule.public_keys P = .ok c →
      (clean h committed ev cn enc rp f .absent P).2 = .ok c) := by
  have hread : readSidecarDigest .absent = .ok zeros32 := rfl
  have hm := clean_miss h committed ev cn enc rp f .absent P zeros32 hread hz
  refine ⟨?_, ?_, ?_⟩
  · rw [hm]
  · intro e hlr
    rw [hm, hlr]
  · intro rule c hlr henc
    simp [hm, hlr, henc]

/-- Witness for C5 at concrete inputs: both the propagated-rule-failure
conjunct and the fresh-encryption conjunct, instantiated. -/
theorem C5_clean_absent_sidecar_witness :
    (clean hashDemo (.ok [9]) evDemo cnDemo encDemo rulesPathDemo fileDemo
        .absent [5]).1 = .present (hashDemo [5]) ∧
    (clean hashDemo (.ok [9]) evDemo cnDemo encDemo rulesPathDemo fileDemo
        .absent [5]).2 = .ok [0, 5] :=
  ⟨(C5_clean_absent_sidecar hashDemo (.ok [9]) evDemo cnDemo encDemo
      rulesPathDemo fileDemo [5] (by decide)).1,
   (C5_clean_absent_sidecar hashDemo (.ok [9]) evDemo cnDemo encDemo
      rulesPathDemo fileDemo [5] (by decide)).2.2
      ⟨fileDemo, [ageKeyDemo]⟩ [0, 5] (by decide) (by decide)⟩

/-- Counterexample to C5 as stated: the code treats a missing sidecar as
the all-zero digest, not as a record matching no digest.  With a hash
adapter whose digest of the plaintext is all zeros, `clean` on an absent
sidecar takes the unchanged-skip branch: it returns the committed blob,
writes no sidecar, and never consults the rule resolver or the
encryption adapter (here both always fail, yet `clean` succeeds). -/
theorem C5_counterexample :
    clean (fun _ => zeros32) (.ok [7]) (fun _ => .error ())
      (fun _ => .error ()) (fun _ _ => .error ())
      rulesPathDemo fileDemo .absent [5]
      = (.absent, .ok [7]) := by decide

/-- Claim C10: when the stored digest differs from the plaintext digest
and the subsequent rule resolution or encryption fails, the sidecar has
nevertheless been overwritten with the fresh digest, the operation
returns an error, and a retried `clean` of the same plaintext hits the
sidecar and returns the committed blob independently of the rule and
encryption adapters. -/
theorem C10_clean_not_atomic (h : Bytes → Bytes)
    (committed : Except CleanErr Bytes)
    (ev : FsPath → Except Unit NixValue) (cn : FsPath → Except Unit FsPath)
    (enc : List String → Bytes → Except Unit Bytes)
    (rp f : FsPath) (sc : FileState) (P old : Bytes)
    (hlen : (h P).length = 32)
    (hread : readSidecarDigest sc = .ok old) (hne : h P ≠ old)
    (hfail : (∃ e, load_rule_for ev cn rp f = .error e) ∨
      (∃ rule, load_rule_for ev cn rp f = .ok rule ∧
        enc rule.public_keys P = .error ())) :
    (clean h committed ev cn enc rp f sc P).1 = .present (h P) ∧
    (∃ e2, (clean h committed ev cn enc rp f sc P).2 = .error e2) ∧
    (∀ (ev2 : FsPath → Except Unit NixValue)
       (cn2 : FsPath → Except Unit FsPath)
       (enc2 : List String → Bytes → Except Unit Bytes) (rp2 f2 : FsPath),
      clean h committed ev2 cn2 enc2 rp2 f2 (.present (h P)) P
        = (.present (h P), committed)) := by
  have hm := clean_miss h committed ev cn enc rp f sc P old hread hne
  refine ⟨by rw [hm], ?_, ?_⟩
  · rcases hfail with ⟨e, hlr⟩ | ⟨rule, hlr, henc⟩
    · exact ⟨.ruleFailed e, by rw [hm, hlr]⟩
    · exact ⟨.encryptFailed, by simp [hm, hlr, henc]⟩
  · intro ev2 cn2 enc2 rp2 f2
    exact clean_hit h committed ev2 cn2 enc2 rp2 f2 P hlen

/-- Witness for C10 at concrete inputs: the evaluator fails, so rule
resolution fails; the sidecar is still overwritten, and the retry
returns the committed blob. -/
theorem C10_clean_not_atomic_witness :
    (clean hashDemo (.ok [9]) (fun _ => .error ()) cnDemo encDemo
        rulesPathDemo fileDemo .absent [5]).1 = .present (hashDemo [5]) ∧
    (∃ e2, (clean hashDemo (.ok [9]) (fun _ => .error ()) cnDemo encDemo
        rulesPathDemo fileDemo .absent [5]).2 = .error e2) ∧
    (∀ (ev2 : FsPath → Except Unit NixValue)
       (cn2 : FsPath → Except Unit FsPath)
       (enc2 : List String → Bytes → Except Unit Bytes) (rp2 f2 : FsPath),
      clean hashDemo (.ok [9]) ev2 cn2 enc2 rp2 f2
          (.present (hashDemo [5])) [5]
        = (.present (hashDemo [5]), .ok [9])) :=
  C10_clean_not_atomic hashDemo (.ok [9]) (fun _ => .error ()) cnDemo encDemo
    rulesPathDemo fileDemo .absent [5] zeros32 (by decide) (by decide)
    (by decide) (.inl ⟨.evalFailed, by decide⟩)

/-- Claim C1: round-trip.  When `clean` actually encrypts (its read
digest differs from the plaintext digest), the rule resolves to
recipients R, and the decrypt adapter inverts the encrypt adapter on R
(matching identities), feeding the bytes `clean` emits into `smudge`
makes `smudge` emit exactly the original plaintext (and store its
digest). -/
theorem C1_roundtrip (h : Bytes → Bytes) (committed : Except CleanErr Bytes)
    (ev : FsPath → Except Unit NixValue) (cn : FsPath → Except Unit FsPath)
    (enc : List String → Bytes → Except Unit Bytes)
    (dec : Bytes → Except Unit (Option Bytes))
    (rp f : FsPath) (sc sc2 : FileState) (P old : Bytes)
    (rule : AgenixRule) (out : Bytes) (R : List String)
    (hread : readSidecarDigest sc = .ok old) (hne : h P ≠ old)
    (hrule : load_rule_for ev cn rp f = .ok rule)
    (hkeys : rule.public_keys = R)
    (hinv : ∀ p c, enc R p = .ok c → dec c = .ok (some p))
    (hout : (clean h committed ev cn enc rp f sc P).2 = .ok out) :
    smudge h dec sc2 out = (.present (h P), .ok P) := by
  have hm := clean_miss h committed ev cn enc rp f sc P old hread hne
  cases henc : enc rule.public_keys P with
  | error a =>
    rw [hm] at hout
    simp [hrule, henc] at hout
  | ok c =>
    rw [hm] at hout
    simp [hrule, henc] at hout
    have hdec : dec out = .ok (some P) := by
      subst hout
      exact hinv P c (hkeys ▸ henc)
    simp [smudge, hdec]

/-- Witness for C1 at concrete inputs: cleaning [5] with an absent
sidecar yields [0, 5]; smudging it emits [5] again. -/
theorem C1_roundtrip_witness :
    smudge hashDemo decDemo .absent [0, 5]
      = (.present (hashDemo [5]), .ok [5]) :=
  C1_roundtrip hashDemo (.ok [9]) evDemo cnDemo encDemo decDemo
    rulesPathDemo fileDemo .absent .absent [5] zeros32
    ⟨fileDemo, [ageKeyDemo]⟩ [0, 5] [ageKeyDemo]
    (by decide) (by decide) (by decide) (by decide)
    (fun p c hc => by
      injection hc with h1
      subst h1
      rfl)
    (by decide)

/-- Claim C3 (amended): whenever the sidecar state reads to a digest
different from the plaintext digest (which covers an absent sidecar with
a nonzero plaintext digest and any stale mismatching record), the bytes
`clean` outputs decrypt back to the plaintext with matching identities;
a record equal to the plaintext digest instead makes `clean` return the
committed blob, which need not decrypt to the plaintext. -/
theorem C3_stale_sidecar_mismatch (h : Bytes → Bytes)
    (committed : Except CleanErr Bytes)
    (ev : FsPath → Except Unit NixValue) (cn : FsPath → Except Unit FsPath)
    (enc : List String → Bytes → Except Unit Bytes)
    (dec : Bytes → Except Unit (Option Bytes))
    (rp f : FsPath) (sc : FileState) (P old : Bytes)
    (rule : AgenixRule) (R : List String)
    (hread : readSidecarDigest sc = .ok old) (hne : h P ≠ old)
    (hrule : load_rule_for ev cn rp f = .ok rule)
    (hkeys : rule.public_keys = R)
    (hinv : ∀ p c, enc R p = .ok c → dec c = .ok (some p)) :
    ∀ out, (clean h committed ev cn enc rp f sc P).2 = .ok out →
      dec out = .ok (some P) := by
  intro out hout
  have hm := clean_miss h committed ev cn enc rp f sc P old hread hne
  cases henc : enc rule.public_keys P with
  | error a =>
    rw [hm] at hout
    simp [hrule, henc] at hout
  | ok c =>
    rw [hm] at hout
    simp [hrule, henc] at hout
    subst hout
    exact hinv P c (hkeys ▸ henc)

/-- Witness for C3 at concrete inputs: with a stale sidecar holding a
digest different from the plaintext digest, the output decrypts back to
the plaintext. -/
theorem C3_stale_sidecar_mismatch_witness :
    decDemo [0, 5] = .ok (some [5]) :=
  C3_stale_sidecar_mismatch hashDemo (.ok [9]) evDemo cnDemo encDemo decDemo
    rulesPathDemo fileDemo (.present (hashDemo [9])) [5] (hashDemo [9])
    ⟨fileDemo, [ageKeyDemo]⟩ [ageKeyDemo]
    (by decide) (by decide) (by decide) (by decide)
    (fun p c hc => by
      injection hc with h1
      subst h1
      rfl)
    [0, 5] (by decide)

/-- Counterexample to C3 as stated: a sidecar record that holds the
plaintext digest but does not correspond to the committed plaintext
blocks correctness.  Here HEAD holds an encryption of [9], the sidecar
holds the digest of [5] (which differs from the digest of [9], so the
record is a false claim about HEAD), and `clean` on plaintext [5]
returns the committed blob, whose decryption [9] is not [5]. -/
theorem C3_counterexample :
    (clean hashDemo (.ok [0, 9]) evDemo cnDemo encDemo rulesPathDemo fileDemo
        (.present (hashDemo [5])) [5]).2 = .ok [0, 9] ∧
    decDemo [0, 9] = .ok (some [9]) ∧
    hashDemo [9] ≠ hashDemo [5] ∧
    ([9] : Bytes) ≠ [5] := by decide

/-- Claim C6: `smudge` fails with the not-encrypted error exactly when
the decrypt adapter does not recognise the input (returns `none`), so
unrecognised bytes are never passed through; and on successful
decryption `smudge` overwrites the sidecar with the plaintext digest and
emits the plaintext. -/
theorem C6_smudge_notEncrypted (h : Bytes → Bytes)
    (dec : Bytes → Except Unit (Option Bytes))
    (sc : FileState) (input : Bytes) :
    ((smudge h dec sc input).2 = .error .notEncrypted ↔
      dec input = .ok none) ∧
    (∀ p, dec input = .ok (some p) →
      smudge h dec sc input = (.present (h p), .ok p)) := by
  constructor
  · cases hd : dec input with
    | error e => simp [smudge, hd]
    | ok o => cases o <;> simp [smudge, hd]
  · intro p hp
    simp [smudge, hp]

/-- Witness for C6 at concrete inputs: an adapter recognising nothing
makes `smudge` fail with the not-encrypted error, and the inverting
adapter makes `smudge` emit the plaintext and store its digest. -/
theorem C6_smudge_notEncrypted_witness :
    (smudge hashDemo decNoneDemo .absent [1, 2]).2 = .error .notEncrypted ∧
    smudge hashDemo decDemo .absent [0, 7]
      = (.present (hashDemo [7]), .ok [7]) :=
  ⟨(C6_smudge_notEncrypted hashDemo decNoneDemo .absent [1, 2]).1.mpr rfl,
   (C6_smudge_notEncrypted hashDemo decDemo .absent [0, 7]).2 [7] rfl⟩

/-- Claim C8: when the decrypt adapter does not recognise the file
content as encrypted, `textconv` succeeds and returns the raw bytes
unchanged. -/
theorem C8_textconv_fallback (dec : Bytes → Except Unit (Option Bytes))
    (contents : Bytes) (hne : dec contents = .ok none) :
    textconv dec contents = .ok contents := by
  simp [textconv, hne]

/-- Witness for C8 at concrete inputs. -/
theorem C8_textconv_fallback_witness :
    textconv decNoneDemo [1, 2, 3] = .ok [1, 2, 3] :=
  C8_textconv_fallback decNoneDemo [1, 2, 3] rfl

/-- `collectStrings` on an array of strings returns exactly those
strings in order. -/
theorem collectStrings_map_str (keys : List String) :
    collectStrings (keys.map NixValue.str) = .ok keys := by
  induction keys with
  | nil => rfl
  | cons k ks ih => simp [collectStrings, NixValue.asStr, ih]

/-- Joining distinct single components onto the same base directory
yields distinct paths. -/
theorem FsPath.joinComp_inj (dir : FsPath) (a b : String) :
    dir.joinComp a = dir.joinComp b ↔ a = b := by
  simp [FsPath.joinComp]

/-- `FsPath.parent` is `none` exactly on a component-free path. -/
theorem FsPath.parent_eq_none (p : FsPath) :
    p.parent = none ↔ p.components = [] := by
  cases h : p.components <;> simp [FsPath.parent, h]

/-- Claim C7: with a well-formed two-entry rule tree, resolution is
deterministic and complete: the path joined from entry A yields exactly
keys1, the path joined from entry B yields exactly keys2, and any other
target fails with the no-rule error carrying the rule source and the
target path. -/
theorem C7_rule_resolution (ev : FsPath → Except Unit NixValue)
    (cn : FsPath → Except Unit FsPath) (rulesPath par dir : FsPath)
    (A B : String) (keys1 keys2 : List String)
    (hpar : rulesPath.parent = some par)
    (hev : ev rulesPath
      = .ok (.obj [(A, mkRuleVal keys1), (B, mkRuleVal keys2)]))
    (hcn : cn par = .ok dir)
    (hAB : A ≠ B) :
    load_rule_for ev cn rulesPath (dir.joinComp A)
      = .ok ⟨dir.joinComp A, keys1⟩ ∧
    load_rule_for ev cn rulesPath (dir.joinComp B)
      = .ok ⟨dir.joinComp B, keys2⟩ ∧
    (∀ tgt, tgt ≠ dir.joinComp A → tgt ≠ dir.joinComp B →
      load_rule_for ev cn rulesPath tgt
        = .error (.noRuleFound rulesPath tgt)) := by
  refine ⟨?_, ?_, ?_⟩
  · simp [load_rule_for, hev, hpar, hcn, findRule, NixValue.asObject,
      mkRuleVal, getAttr, NixValue.asArray, collectStrings_map_str]
  · have hne : dir.joinComp A ≠ dir.joinComp B :=
      fun hc => hAB ((FsPath.joinComp_inj dir A B).mp hc)
    simp [load_rule_for, hev, hpar, hcn, findRule, NixValue.asObject,
      mkRuleVal, getAttr, NixValue.asArray, collectStrings_map_str, hne]
  · intro tgt h1 h2
    simp [load_rule_for, hev, hpar, hcn, findRule, NixValue.asObject,
      Ne.symm h1, Ne.symm h2]

/-- Witness for C7 at the spec's concrete scenario: a two-entry tree
resolves each listed path to its own key list and fails with the no-rule
error on an unlisted path. -/
theorem C7_rule_resolution_witness :
    load_rule_for evDemo cnDemo rulesPathDemo (dirDemo.joinComp keyDemo)
      = .ok ⟨dirDemo.joinComp keyDemo, [ageKeyDemo]⟩ ∧
    load_rule_for evDemo cnDemo rulesPathDemo (dirDemo.joinComp key2Demo)
      = .ok ⟨dirDemo.joinComp key2Demo, [ageKey2Demo]⟩ ∧
    load_rule_for evDemo cnDemo rulesPathDemo (dirDemo.joinComp key3Demo)
      = .error (.noRuleFound rulesPathDemo (dirDemo.joinComp key3Demo)) :=
  ⟨(C7_rule_resolution evDemo cnDemo rulesPathDemo dirDemo dirDemo
      keyDemo key2Demo [ageKeyDemo] [ageKey2Demo]
      rfl rfl rfl (by decide)).1,
   (C7_rule_resolution evDemo cnDemo rulesPathDemo dirDemo dirDemo
      keyDemo key2Demo [ageKeyDemo] [ageKey2Demo]
      rfl rfl rfl (by decide)).2.1,
   (C7_rule_resolution evDemo cnDemo rulesPathDemo dirDemo dirDemo
      keyDemo key2Demo [ageKeyDemo] [ageKey2Demo]
      rfl rfl rfl (by decide)).2.2
      (dirDemo.joinComp key3Demo) (by decide) (by decide)⟩

/-- `collectStrings` never reports the panic marker: its only failure is
a recoverable config error. -/
theorem collectStrings_ne_panicked (l : List NixValue) :
    collectStrings l ≠ .error .panicked := by
  induction l with
  | nil => simp [collectStrings]
  | cons v rest ih =>
    cases hv : v.asStr with
    | none => simp [collectStrings, hv]
    | some s =>
      cases hr : collectStrings rest with
      | error e =>
        have he : e ≠ .panicked := fun h => ih (by rw [hr, h])
        simp [collectStrings, hv, hr, he]
      | ok ss => simp [collectStrings, hv, hr]

/-- The entry walk never reports the panic marker: every validation
failure is a recoverable error. -/
theorem findRule_ne_panicked (rp tgt dir : FsPath)
    (entries : List (String × NixValue)) :
    findRule rp tgt dir entries ≠ .error .panicked := by
  induction entries with
  | nil => simp [findRule]
  | cons ent rest ih =>
    obtain ⟨pth, v⟩ := ent
    by_cases hmatch : dir.joinComp pth = tgt
    · cases hobj : v.asObject with
      | none => simp [findRule, hmatch, hobj]
      | some entry =>
        cases hget : getAttr entry pkKey with
        | none => simp [findRule, hmatch, hobj, hget]
        | some pkVal =>
          cases harr : pkVal.asArray with
          | none => simp [findRule, hmatch, hobj, hget, harr]
          | some arr =>
            cases hcs : collectStrings arr with
            | error e =>
              have he : e ≠ .panicked :=
                fun h => collectStrings_ne_panicked arr (by rw [hcs, h])
              simp [findRule, hmatch, hobj, hget, harr, hcs, he]
            | ok keys => simp [findRule, hmatch, hobj, hget, harr, hcs]
    · simpa [findRule, hmatch] using ih

/-- Claim C9 (amended): for a rule-source path with at least one
component (so `Path::parent` exists) and any evaluator output shape,
rule resolution never panics: every validation failure and the
base-directory resolution surface as recoverable errors.  The sole
panic site is the `.unwrap()` on `parent` of a component-free rule-source
path. -/
theorem C9_resolver_no_panic (ev : FsPath → Except Unit NixValue)
    (cn : FsPath → Except Unit FsPath) (rulesPath target : FsPath)
    (hp : rulesPath.components ≠ []) :
    load_rule_for ev cn rulesPath target ≠ .error .panicked := by
  cases hev : ev rulesPath with
  | error e => simp [load_rule_for, hev]
  | ok val =>
    cases hpc : rulesPath.parent with
    | none => exact absurd ((FsPath.parent_eq_none rulesPath).mp hpc) hp
    | some par =>
      cases hcn : cn par with
      | error e2 => simp [load_rule_for, hev, hpc, hcn]
      | ok dir =>
        cases hobj : val.asObject with
        | none => simp [load_rule_for, hev, hpc, hcn, hobj]
        | some entries =>
          simpa [load_rule_for, hev, hpc, hcn, hobj] using
            findRule_ne_panicked rulesPath target dir entries

/-- Witness for C9 at concrete inputs. -/
theorem C9_resolver_no_panic_witness :
    load_rule_for evDemo cnDemo rulesPathDemo fileDemo
      ≠ .error .panicked :=
  C9_resolver_no_panic evDemo cnDemo rulesPathDemo fileDemo (by decide)

/-- Counterexample to C9 as stated: on a component-free rule-source path
(a filesystem root), with an evaluator that succeeds, the resolver hits
the `.unwrap()` on `Path::parent` and panics instead of returning a
recoverable error. -/
theorem C9_counterexample :
    load_rule_for (fun _ => .ok (NixValue.obj [])) (fun p => .ok p)
      ⟨true, []⟩ fileDemo = .error .panicked := by decide
